import Mathlib

/-!
Shallow embedding of the two core source files of solidity-ibc-eureka:

* `programs/cw-ics08-wasm-eth/src/contract.rs` — the CosmWasm entry points of
  the Ethereum light-client verifier contract (instantiate / sudo / migrate);
* `packages/relayer-lib/src/tx_builder/eth_to_cosmos.rs` — the
  Ethereum→Cosmos transaction builder (`TxBuilder::relay_events` and its
  helpers).

Rust `u64` values are modelled as `Nat` with explicit wrapping modulo `2^64`
where the source can overflow.  External I/O (beacon API, execution JSON-RPC,
Tendermint RPC) is modelled by oracle records whose fields hold the responses
the calls would return; helper modules of this repository that are not among
the shown sources (`crate::utils::cosmos`, `crate::sudo`, `instantiate::client`,
`ClientState` methods of the ethereum-light-client crate, `cw2`) are either
supplied as parameters or modelled from the specification, each marked in its
doc comment.  Rust panics (`todo!`, `.unwrap()` on `None`, failed `try_into`)
are a distinguished `Outcome.panicked` result, separate from typed errors.
-/

namespace Eureka

/-- The modulus of Rust `u64` arithmetic. -/
def U64MOD : Nat := 2 ^ 64

/-- Wrapping `u64` addition (release-profile Rust `+`). -/
def wrapAdd (a b : Nat) : Nat := (a + b) % U64MOD

/-- Wrapping `u64` subtraction (release-profile Rust `-`): for `b < 2^64` this
is `(a + 2^64 - b) % 2^64`. -/
def wrapSub (a b : Nat) : Nat := (a + (U64MOD - b % U64MOD)) % U64MOD

/-- A beacon block header; only the slot is consulted by the shown code. -/
structure BeaconBlockHeader where
  slot : Nat
deriving DecidableEq

/-- An execution payload header; the shown code consults the block number and
the timestamp. -/
structure ExecutionPayloadHeader where
  block_number : Nat
  timestamp : Nat
deriving DecidableEq

/-- A light-client header: beacon part plus execution part. -/
structure LightClientHeader where
  beacon : BeaconBlockHeader
  execution : ExecutionPayloadHeader
deriving DecidableEq

/-- `LightClientUpdate`.  The sync committee and aggregate contents are opaque
to the shown code and are modelled as `Nat` tokens. -/
structure LightClientUpdate where
  attested_header : LightClientHeader
  next_sync_committee : Option Nat
  finalized_header : LightClientHeader
  sync_aggregate : Nat
  signature_slot : Nat
deriving DecidableEq

/-- `LightClientFinalityUpdate`: an update without the next-sync-committee
field. -/
structure LightClientFinalityUpdate where
  attested_header : LightClientHeader
  finalized_header : LightClientHeader
  sync_aggregate : Nat
  signature_slot : Nat
deriving DecidableEq

/-- The `From<LightClientFinalityUpdate> for LightClientUpdate` conversion used
by `finality_update.clone().into()`. -/
def LightClientFinalityUpdate.toUpdate (f : LightClientFinalityUpdate) : LightClientUpdate :=
  { attested_header := f.attested_header
    next_sync_committee := none
    finalized_header := f.finalized_header
    sync_aggregate := f.sync_aggregate
    signature_slot := f.signature_slot }

/-- The Ethereum light-client `ClientState` persisted on the Cosmos chain.
Byte-array fields (roots, addresses, fork parameters) are opaque to the shown
code and are modelled as `Nat` tokens. -/
structure ClientState where
  chain_id : Nat
  genesis_validators_root : Nat
  min_sync_committee_participants : Nat
  genesis_time : Nat
  genesis_slot : Nat
  fork_parameters : Nat
  seconds_per_slot : Nat
  slots_per_epoch : Nat
  epochs_per_sync_committee_period : Nat
  latest_slot : Nat
  latest_execution_block_number : Nat
  ibc_commitment_slot : Nat
  ibc_contract_address : Nat
  is_frozen : Bool
deriving DecidableEq

/-- Modelled from the spec: `ClientState::compute_sync_committee_period_at_slot`
of the ethereum-light-client crate (not among the shown sources);
`period_of(s) = s / (slots_per_epoch * epochs_per_sync_committee_period)`. -/
def ClientState.compute_sync_committee_period_at_slot (cs : ClientState) (slot : Nat) : Nat :=
  slot / (cs.slots_per_epoch * cs.epochs_per_sync_committee_period)

/-- Modelled from the spec: `ClientState::compute_slot_at_timestamp` of the
ethereum-light-client crate (not among the shown sources); computes the slot
from `seconds_per_slot` and `genesis_time` and is `None` for a timestamp before
the genesis time. -/
def ClientState.compute_slot_at_timestamp (cs : ClientState) (ts : Nat) : Option Nat :=
  if ts < cs.genesis_time then none
  else some ((ts - cs.genesis_time) / cs.seconds_per_slot + cs.genesis_slot)

/-- The `eth_getProof` response consulted by the builder: `accountProof` and
`storageHash`. -/
structure AccountProofResult where
  account_proof : List Nat
  storage_hash : Nat
deriving DecidableEq

/-- `AccountProof { proof, storage_root }`. -/
structure AccountProof where
  proof : List Nat
  storage_root : Nat
deriving DecidableEq

/-- `AccountUpdate { account_proof }`. -/
structure AccountUpdate where
  account_proof : AccountProof
deriving DecidableEq

/-- `ActiveSyncCommittee`: a tagged committee, already-trusted (`Current`) or
newly introduced (`Next`); the committee itself is an opaque token. -/
inductive ActiveSyncCommittee where
  | Current (committee : Nat)
  | Next (committee : Nat)
deriving DecidableEq

/-- The header the relayer submits: active committee, consensus update and
account update. -/
structure Header where
  active_sync_committee : ActiveSyncCommittee
  consensus_update : LightClientUpdate
  account_update : AccountUpdate
deriving DecidableEq

/-- Whether a header is `Current`-tagged. -/
def Header.isCurrentTagged (h : Header) : Bool :=
  match h.active_sync_committee with
  | ActiveSyncCommittee.Current _ => true
  | ActiveSyncCommittee.Next _ => false

/-- The finalized beacon slot of a header's consensus update. -/
def header_finalized_slot (h : Header) : Nat :=
  h.consensus_update.finalized_header.beacon.slot

/-- The sync-committee period of a header's finalized slot. -/
def header_period (cs : ClientState) (h : Header) : Nat :=
  cs.compute_sync_committee_period_at_slot (header_finalized_slot h)

/-- The external-I/O inputs of one relay cycle, supplied as pure values: each
field holds what the corresponding RPC call would return. -/
structure Oracles where
  /-- `eth_client.get_block_number()`. -/
  latest_block_number : Nat
  /-- The first `ethereum_client_state` load. -/
  client_state0 : ClientState
  /-- The `ethereum_client_state` re-load after the readiness wait. -/
  client_state1 : ClientState
  /-- `beacon_api_client.finality_update()` per readiness-wait poll. -/
  readiness_polls : Nat → LightClientFinalityUpdate
  /-- `beacon_api_client.finality_update()` inside `get_update_headers`. -/
  finality_update : LightClientFinalityUpdate
  /-- The `light_client_updates` response consumed by the planner loop. -/
  light_client_updates : List LightClientUpdate
  /-- `get_sync_commitee_for_finalized_slot`: bootstrap at the block root of
  the given slot and take `current_sync_committee`. -/
  committee_at : Nat → Nat
  /-- `eth_client.get_proof(address, [], block_hex)` keyed by contract address
  and execution block number. -/
  proof_at : Nat → Nat → AccountProofResult
  /-- `tm_client.latest_block().block.header.time.unix_timestamp()` per
  post-assembly poll (an `i64`). -/
  tm_timestamps : Nat → Int
  /-- `SystemTime::now` seconds since the unix epoch. -/
  now_unix : Nat

/-- A Rust `Result` extended with a distinguished panic outcome. -/
inductive Outcome (ε α : Type) where
  | ok (a : α)
  | err (e : ε)
  | panicked
deriving DecidableEq

/-- Whether an outcome is a typed error. -/
def Outcome.isErr {ε α : Type} : Outcome ε α → Bool
  | Outcome.err _ => true
  | _ => false

/-- The typed errors the embedded relayer pipeline can return. -/
inductive RelayError where
  | timeoutElapsed
  | injectFailed (e : Nat)
deriving DecidableEq

/-- Modelled from the spec: `crate::utils::wait_for_condition` (not among the
shown sources) polls once per interval for up to the deadline.  `wait_polls
cond i fuel` runs polls `i, i+1, …` while fuel remains; it returns the index of
the first successful poll (the source returns `()`; the index records which
poll met the condition) and a timeout error when the fuel is exhausted. -/
def wait_polls (cond : Nat → Outcome RelayError Bool) : Nat → Nat → Outcome RelayError Nat
  | _, 0 => Outcome.err RelayError.timeoutElapsed
  | i, fuel + 1 =>
    match cond i with
    | Outcome.ok true => Outcome.ok i
    | Outcome.ok false => wait_polls cond (i + 1) fuel
    | Outcome.err e => Outcome.err e
    | Outcome.panicked => Outcome.panicked

/-- Modelled from the spec: `wait_for_condition(deadline, interval, cond)` makes
`deadline / interval` polls. -/
def wait_for_condition (deadline_secs interval_secs : Nat)
    (cond : Nat → Outcome RelayError Bool) : Outcome RelayError Nat :=
  wait_polls cond 0 (deadline_secs / interval_secs)

/-- The poll body of `wait_for_light_client_readiness`: fetch a finality update
and succeed once its finalized execution block number reaches the target. -/
def readiness_cond (o : Oracles) (target_block_number : Nat) (i : Nat) :
    Outcome RelayError Bool :=
  if (o.readiness_polls i).finalized_header.execution.block_number < target_block_number then
    Outcome.ok false
  else
    Outcome.ok true

/-- `wait_for_light_client_readiness(target_block_number)`: poll every 10
seconds for up to 45 minutes. -/
def wait_for_light_client_readiness (o : Oracles) (target_block_number : Nat) :
    Outcome RelayError Nat :=
  wait_for_condition (45 * 60) 10 (readiness_cond o target_block_number)

/-- `light_client_update_to_header`: attach the account proof taken at the
update's finalized execution block number for the IBC contract address. -/
def light_client_update_to_header (o : Oracles) (ethereum_client_state : ClientState)
    (active_sync_committee : ActiveSyncCommittee) (update : LightClientUpdate) : Header :=
  { active_sync_committee := active_sync_committee
    account_update :=
      { account_proof :=
          { proof := (o.proof_at ethereum_client_state.ibc_contract_address
              update.finalized_header.execution.block_number).account_proof
            storage_root := (o.proof_at ethereum_client_state.ibc_contract_address
              update.finalized_header.execution.block_number).storage_hash } }
    consensus_update := update }

/-- The `for update in &light_client_updates` loop of `get_update_headers`,
with the mutable `latest_trusted_slot` / `latest_period` passed explicitly:
skip updates at or below the trusted slot, skip updates in the trusted period,
and turn each remaining update into a `Next`-tagged header. -/
def update_headers_loop (o : Oracles) (cs : ClientState) :
    Nat → Nat → List LightClientUpdate → List Header
  | _, _, [] => []
  | latest_trusted_slot, latest_period, update :: rest =>
    if update.finalized_header.beacon.slot ≤ latest_trusted_slot then
      update_headers_loop o cs latest_trusted_slot latest_period rest
    else if cs.compute_sync_committee_period_at_slot update.finalized_header.beacon.slot
        = latest_period then
      update_headers_loop o cs latest_trusted_slot latest_period rest
    else
      light_client_update_to_header o cs
          (ActiveSyncCommittee.Next (o.committee_at update.finalized_header.beacon.slot)) update
        :: update_headers_loop o cs update.finalized_header.beacon.slot
          (cs.compute_sync_committee_period_at_slot update.finalized_header.beacon.slot) rest

/-- The `headers.last().is_none_or(...)` condition deciding whether a final
header is appended for the finality update itself. -/
def append_final_cond (headers : List Header) (finality_update : LightClientFinalityUpdate) :
    Bool :=
  match headers.getLast? with
  | none => true
  | some last_header =>
    decide (last_header.consensus_update.finalized_header.beacon.slot
      < finality_update.finalized_header.beacon.slot)

/-- The header built from the finality update itself: `Current`-tagged with the
committee fetched at the finality update's attested slot. -/
def finality_header (o : Oracles) (cs : ClientState)
    (finality_update : LightClientFinalityUpdate) : Header :=
  light_client_update_to_header o cs
    (ActiveSyncCommittee.Current (o.committee_at finality_update.attested_header.beacon.slot))
    finality_update.toUpdate

/-- `get_update_headers`: run the update loop from the client state's trusted
slot and period, then append a header for the finality update when the loop
output is empty or ends before the finality update's finalized slot. -/
def get_update_headers (o : Oracles) (cs : ClientState) : List Header :=
  if append_final_cond
      (update_headers_loop o cs cs.latest_slot
        (cs.compute_sync_committee_period_at_slot cs.latest_slot) o.light_client_updates)
      o.finality_update then
    update_headers_loop o cs cs.latest_slot
        (cs.compute_sync_committee_period_at_slot cs.latest_slot) o.light_client_updates
      ++ [finality_header o cs o.finality_update]
  else
    update_headers_loop o cs cs.latest_slot
      (cs.compute_sync_committee_period_at_slot cs.latest_slot) o.light_client_updates

/-- The `count` argument `get_light_client_updates` passes to
`beacon_api_client.light_client_updates`: the Rust u64 expression
`target_period - trusted_period + 1` (wrapping on under- and overflow in the
release profile). -/
def light_client_updates_count (cs : ClientState)
    (finality_update : LightClientFinalityUpdate) : Nat :=
  wrapAdd
    (wrapSub
      (cs.compute_sync_committee_period_at_slot finality_update.finalized_header.beacon.slot)
      (cs.compute_sync_committee_period_at_slot cs.latest_slot))
    1

/-- An Ethereum event with its optional execution block number; the event
payload is opaque to the shown code. -/
structure EurekaEventWithHeight where
  block_number : Option Nat
  event : Nat
deriving DecidableEq

/-- `ibc.core.client.v1.Height`. -/
structure HeightRH where
  revision_number : Nat
  revision_height : Nat
deriving DecidableEq

/-- `MsgTimeout`; its contents are produced and consumed outside the shown
code and are opaque here. -/
structure MsgTimeout where
  data : Nat
deriving DecidableEq

/-- `MsgRecvPacket`, opaque here. -/
structure MsgRecvPacket where
  data : Nat
deriving DecidableEq

/-- `MsgAcknowledgement`, opaque here. -/
structure MsgAcknowledgement where
  data : Nat
deriving DecidableEq

/-- `ibc.lightclients.wasm.v1.ClientMessage`; its `data` field holds the
serialized header, modelled by the header value itself. -/
structure ClientMessage where
  data : Header
deriving DecidableEq

/-- `MsgUpdateClient`; client ids and signer addresses are opaque tokens. -/
structure MsgUpdateClient where
  client_id : Nat
  client_message : ClientMessage
  signer : Nat
deriving DecidableEq

/-- A protobuf `Any`-encoded message of the emitted transaction body, tagged by
its type URL. -/
inductive AnyMsg where
  | updateClient (m : MsgUpdateClient)
  | timeout (m : MsgTimeout)
  | recv (m : MsgRecvPacket)
  | ack (m : MsgAcknowledgement)
deriving DecidableEq

/-- `cosmos.tx.v1beta1.TxBody` (its messages; the other fields are default). -/
structure TxBody where
  messages : List AnyMsg
deriving DecidableEq

/-- The helper functions of `crate::utils::cosmos` (not among the shown
sources), supplied as parameters: event-to-message conversion and per-message
proof injection.  `inject_ethereum_proofs` takes the three message lists, the
IBC contract address, the IBC commitment slot and the proof slot, and returns
the message lists with proofs attached (the source mutates them in place). -/
structure CosmosHelpers where
  target_events_to_timeout_msgs :
    List EurekaEventWithHeight → Nat → Nat → List Nat → HeightRH → Nat → Nat → List MsgTimeout
  src_events_to_recv_and_ack_msgs :
    List EurekaEventWithHeight → Nat → Nat → List Nat → List Nat → HeightRH → Nat → Nat →
      List MsgRecvPacket × List MsgAcknowledgement
  inject_ethereum_proofs :
    List MsgRecvPacket → List MsgAcknowledgement → List MsgTimeout → Nat → Nat → Nat →
      Except Nat (List MsgRecvPacket × List MsgAcknowledgement × List MsgTimeout)

/-- The `minimum_block_number` computation of `relay_events`: with destination
events present use the chain's latest block, otherwise the maximum event block
number, falling back to the latest block. -/
def minimum_block_number_of (latest_block_number : Nat)
    (src_events dest_events : List EurekaEventWithHeight) : Nat :=
  if dest_events.isEmpty then
    ((src_events.filterMap (fun e => e.block_number)).max?).getD latest_block_number
  else
    latest_block_number

/-- `minimum_block_number` as `relay_events` computes it from the oracles. -/
def relay_min (o : Oracles) (src_events dest_events : List EurekaEventWithHeight) : Nat :=
  minimum_block_number_of o.latest_block_number src_events dest_events

/-- The `target_height` of `relay_events`. -/
def relay_target_height (o : Oracles) (src_events dest_events : List EurekaEventWithHeight) :
    HeightRH :=
  { revision_number := 0, revision_height := relay_min o src_events dest_events }

/-- The timeout messages of `relay_events` before proof injection. -/
def relay_timeout_msgs (helpers : CosmosHelpers) (o : Oracles)
    (src_events dest_events : List EurekaEventWithHeight) (src_client_id dst_client_id : Nat)
    (dst_packet_seqs : List Nat) (signer_address : Nat) : List MsgTimeout :=
  helpers.target_events_to_timeout_msgs dest_events src_client_id dst_client_id dst_packet_seqs
    (relay_target_height o src_events dest_events) signer_address o.now_unix

/-- The recv and ack messages of `relay_events` before proof injection. -/
def relay_recv_ack_msgs (helpers : CosmosHelpers) (o : Oracles)
    (src_events dest_events : List EurekaEventWithHeight) (src_client_id dst_client_id : Nat)
    (src_packet_seqs dst_packet_seqs : List Nat) (signer_address : Nat) :
    List MsgRecvPacket × List MsgAcknowledgement :=
  helpers.src_events_to_recv_and_ack_msgs src_events src_client_id dst_client_id src_packet_seqs
    dst_packet_seqs (relay_target_height o src_events dest_events) signer_address o.now_unix

/-- The header-producing step of `relay_events`: when the minimum block number
is beyond the trusted execution block, wait for readiness, re-load the client
state and compute update headers; otherwise no headers.  Returns the headers
together with the client state in scope afterwards. -/
def relay_headers_and_state (o : Oracles) (minimum_block_number : Nat) :
    Outcome RelayError (List Header × ClientState) :=
  if minimum_block_number > o.client_state0.latest_execution_block_number then
    match wait_for_light_client_readiness o minimum_block_number with
    | Outcome.ok _ => Outcome.ok (get_update_headers o o.client_state1, o.client_state1)
    | Outcome.err e => Outcome.err e
    | Outcome.panicked => Outcome.panicked
  else
    Outcome.ok ([], o.client_state0)

/-- The `proof_slot` of `relay_events`: the last header's finalized slot, or
the client state's latest slot when there are no headers. -/
def relay_proof_slot (headers : List Header) (ethereum_client_state : ClientState) : Nat :=
  (headers.getLast?).elim ethereum_client_state.latest_slot
    (fun h => h.consensus_update.finalized_header.beacon.slot)

/-- One poll of the post-assembly wait: with no headers it is immediately
satisfied before any destination-chain query; otherwise it reads the
destination chain's latest block time, unwraps the `i64 → u64` conversion and
`compute_slot_at_timestamp` (a panic when either fails), unwraps the latest
signature slot, and succeeds once the computed slot passes it. -/
def post_assembly_cond (cs : ClientState) (headers : List Header)
    (latest_signature_slot : Option Nat) (o : Oracles) (i : Nat) : Outcome RelayError Bool :=
  if headers.isEmpty then
    Outcome.ok true
  else
    if o.tm_timestamps i < 0 then
      Outcome.panicked
    else
      match cs.compute_slot_at_timestamp (o.tm_timestamps i).toNat with
      | none => Outcome.panicked
      | some calculated_slot =>
        match latest_signature_slot with
        | none => Outcome.panicked
        | some s => Outcome.ok (decide (calculated_slot > s))

/-- The post-assembly wait of `relay_events`: poll every 10 seconds for up to
15 minutes. -/
def post_assembly_wait (cs : ClientState) (headers : List Header)
    (latest_signature_slot : Option Nat) (o : Oracles) : Outcome RelayError Nat :=
  wait_for_condition (15 * 60) 10 (post_assembly_cond cs headers latest_signature_slot o)

/-- `TxBuilder::relay_events`: compute the minimum block number and the packet
messages, produce headers when needed, pin proofs to the proof slot, build one
`MsgUpdateClient` per header, run the post-assembly wait, and emit the
transaction body holding updates, then timeouts, then recvs, then acks, each
`Any`-encoded. -/
def relay_events (o : Oracles) (helpers : CosmosHelpers)
    (src_events dest_events : List EurekaEventWithHeight)
    (src_client_id dst_client_id : Nat) (src_packet_seqs dst_packet_seqs : List Nat)
    (signer_address : Nat) : Outcome RelayError TxBody :=
  match relay_headers_and_state o (relay_min o src_events dest_events) with
  | Outcome.err e => Outcome.err e
  | Outcome.panicked => Outcome.panicked
  | Outcome.ok (headers, ethereum_client_state) =>
    match helpers.inject_ethereum_proofs
        (relay_recv_ack_msgs helpers o src_events dest_events src_client_id dst_client_id
          src_packet_seqs dst_packet_seqs signer_address).1
        (relay_recv_ack_msgs helpers o src_events dest_events src_client_id dst_client_id
          src_packet_seqs dst_packet_seqs signer_address).2
        (relay_timeout_msgs helpers o src_events dest_events src_client_id dst_client_id
          dst_packet_seqs signer_address)
        ethereum_client_state.ibc_contract_address ethereum_client_state.ibc_commitment_slot
        (relay_proof_slot headers ethereum_client_state) with
    | Except.error e => Outcome.err (RelayError.injectFailed e)
    | Except.ok (recv_msgs, ack_msgs, timeout_msgs) =>
      match post_assembly_wait ethereum_client_state headers
          (headers.getLast?.map (fun h => h.consensus_update.signature_slot)) o with
      | Outcome.err e => Outcome.err e
      | Outcome.panicked => Outcome.panicked
      | Outcome.ok _ =>
        Outcome.ok
          { messages :=
              (headers.map (fun header => AnyMsg.updateClient
                { client_id := dst_client_id
                  client_message := { data := header }
                  signer := signer_address }))
                ++ timeout_msgs.map AnyMsg.timeout
                ++ recv_msgs.map AnyMsg.recv
                ++ ack_msgs.map AnyMsg.ack }

/-- A parsed semver version, as the cw2 crate compares them (prerelease and
build metadata do not occur in the contract's versions). -/
structure SemVer where
  major : Nat
  minor : Nat
  patch : Nat
deriving DecidableEq

/-- Strict semver precedence: lexicographic on (major, minor, patch). -/
def SemVer.Lt (a b : SemVer) : Prop :=
  a.major < b.major
    ∨ (a.major = b.major
        ∧ (a.minor < b.minor ∨ (a.minor = b.minor ∧ a.patch < b.patch)))

instance (a b : SemVer) : Decidable (SemVer.Lt a b) := by
  unfold SemVer.Lt
  exact inferInstance

/-- The cw2 `ContractVersion` record stored under the cw2 key: contract name
(an opaque token) and version. -/
structure ContractVersion where
  contract : Nat
  version : SemVer
deriving DecidableEq

/-- The Ethereum light-client `ConsensusState`; roots and committees are
opaque tokens. -/
structure ConsensusState where
  slot : Nat
  state_root : Nat
  storage_root : Nat
  timestamp : Nat
  current_sync_committee : Nat
  next_sync_committee : Option Nat
deriving DecidableEq

/-- The wasm client-state envelope stored under `HOST_CLIENT_STATE_KEY`:
inner client state, checksum and latest height. -/
structure WasmClientStateRecord where
  data : ClientState
  checksum : Nat
  latest_height : HeightRH
deriving DecidableEq

/-- The contract's persistent storage: the cw2 version record, the
`HOST_CLIENT_STATE_KEY` entry, and the consensus states keyed by slot. -/
structure ContractStorage where
  contract_info : Option ContractVersion
  host_client_state : Option WasmClientStateRecord
  consensus_states : List (Nat × ConsensusState)
deriving DecidableEq

/-- `InstantiateMsg`: client state bytes, consensus state bytes and checksum.
The two `Binary` payloads are modelled by their decoded values, with `none`
standing for bytes that fail to deserialize. -/
structure InstantiateMsg where
  client_state : Option ClientState
  consensus_state : Option ConsensusState
  checksum : Nat
deriving DecidableEq

/-- `MigrateMsg { instantiate_msg: Option<InstantiateMsg> }`. -/
structure MigrateMsg where
  instantiate_msg : Option InstantiateMsg
deriving DecidableEq

/-- The typed contract errors the embedded entry points can return. -/
inductive ContractError where
  | versionNotSet
  | contractNameMismatch
  | versionTooOld
  | decodeFailed
deriving DecidableEq

/-- cw2's `set_contract_version`: write the version record. -/
def set_contract_version (st : ContractStorage) (name : Nat) (version : SemVer) :
    ContractStorage :=
  { st with contract_info := some { contract := name, version := version } }

/-- cw2's `ensure_from_older_version` (the cw2 dependency of the contract):
read the stored record; fail when it is missing, names another contract, or
holds a version strictly newer than `new_version`; bump the record when
`new_version` is strictly newer; succeed without writing when the versions are
equal. -/
def ensure_from_older_version (st : ContractStorage) (name : Nat) (new_version : SemVer) :
    Except ContractError (SemVer × ContractStorage) :=
  match st.contract_info with
  | none => Except.error ContractError.versionNotSet
  | some stored =>
    if stored.contract ≠ name then
      Except.error ContractError.contractNameMismatch
    else if SemVer.Lt new_version stored.version then
      Except.error ContractError.versionTooOld
    else if SemVer.Lt stored.version new_version then
      Except.ok (stored.version, set_contract_version st name new_version)
    else
      Except.ok (stored.version, st)

/-- Modelled from the spec: `instantiate::client` (module not among the shown
sources) stores the wasm envelope around the client state at
`HOST_CLIENT_STATE_KEY` (checksum and latest height `(0, latest_slot)`
included) and the consensus state keyed by its slot; it fails when either
input fails to deserialize. -/
def instantiate_client (st : ContractStorage) (msg : InstantiateMsg) :
    Except ContractError ContractStorage :=
  match msg.client_state, msg.consensus_state with
  | some cs, some cons =>
    Except.ok
      { st with
        host_client_state := some
          { data := cs
            checksum := msg.checksum
            latest_height := { revision_number := 0, revision_height := cs.latest_slot } }
        consensus_states := (cons.slot, cons) :: st.consensus_states }
  | _, _ => Except.error ContractError.decodeFailed

/-- The `instantiate` entry point: record the contract name and state version
via cw2, then store client and consensus state. -/
def instantiate (contract_name : Nat) (state_version : SemVer) (st : ContractStorage)
    (msg : InstantiateMsg) : Except ContractError ContractStorage :=
  instantiate_client (set_contract_version st contract_name state_version) msg

/-- The `migrate` entry point: `cw2::ensure_from_older_version`, then an
optional re-instantiate.  `contract_name` / `state_version` stand for the
compile-time `CONTRACT_NAME` / `STATE_VERSION` constants. -/
def migrate (contract_name : Nat) (state_version : SemVer) (st : ContractStorage)
    (msg : MigrateMsg) : Except ContractError ContractStorage :=
  match ensure_from_older_version st contract_name state_version with
  | Except.error e => Except.error e
  | Except.ok (_, st1) =>
    match msg.instantiate_msg with
    | some instantiate_msg =>
      match instantiate_client st1 instantiate_msg with
      | Except.error e => Except.error e
      | Except.ok st2 => Except.ok st2
    | none => Except.ok st1

/-- `SudoMsg`; the payloads of the individual variants are opaque to the
routing code in `contract.rs` and are modelled as `Nat` tokens. -/
inductive SudoMsg where
  | VerifyMembership (payload : Nat)
  | VerifyNonMembership (payload : Nat)
  | UpdateState (payload : Nat)
  | UpdateStateOnMisbehaviour (payload : Nat)
  | VerifyUpgradeAndUpdateState (payload : Nat)
  | MigrateClientStore (payload : Nat)
deriving DecidableEq

/-- The handlers of `crate::sudo` (module not among the shown sources),
supplied as parameters: each returns response data (a token) or a typed
contract error; the stateful ones also return the updated storage. -/
structure SudoHandlers where
  verify_membership : ContractStorage → Nat → Except ContractError Nat
  verify_non_membership : ContractStorage → Nat → Except ContractError Nat
  update_state : ContractStorage → Nat → Except ContractError (ContractStorage × Nat)
  misbehaviour : ContractStorage → Nat → Except ContractError (ContractStorage × Nat)

/-- The `sudo` entry point: route the message to its handler.  The
`VerifyUpgradeAndUpdateState` and `MigrateClientStore` arms are `todo!()` in
the source and therefore panic. -/
def «sudo» (handlers : SudoHandlers) (st : ContractStorage) (msg : SudoMsg) :
    Outcome ContractError (ContractStorage × Nat) :=
  match msg with
  | SudoMsg.VerifyMembership p =>
    match handlers.verify_membership st p with
    | Except.ok d => Outcome.ok (st, d)
    | Except.error e => Outcome.err e
  | SudoMsg.VerifyNonMembership p =>
    match handlers.verify_non_membership st p with
    | Except.ok d => Outcome.ok (st, d)
    | Except.error e => Outcome.err e
  | SudoMsg.UpdateState p =>
    match handlers.update_state st p with
    | Except.ok r => Outcome.ok r
    | Except.error e => Outcome.err e
  | SudoMsg.UpdateStateOnMisbehaviour p =>
    match handlers.misbehaviour st p with
    | Except.ok r => Outcome.ok r
    | Except.error e => Outcome.err e
  | SudoMsg.VerifyUpgradeAndUpdateState _ => Outcome.panicked
  | SudoMsg.MigrateClientStore _ => Outcome.panicked

/-- An all-zero client state used as a base for concrete evaluations. -/
def csZero : ClientState where
  chain_id := 0
  genesis_validators_root := 0
  min_sync_committee_participants := 0
  genesis_time := 0
  genesis_slot := 0
  fork_parameters := 0
  seconds_per_slot := 0
  slots_per_epoch := 0
  epochs_per_sync_committee_period := 0
  latest_slot := 0
  latest_execution_block_number := 0
  ibc_commitment_slot := 0
  ibc_contract_address := 0
  is_frozen := false

/-- An all-zero light-client header. -/
def lchZero : LightClientHeader where
  beacon := { slot := 0 }
  execution := { block_number := 0, timestamp := 0 }

/-- An all-zero finality update. -/
def fuZero : LightClientFinalityUpdate where
  attested_header := lchZero
  finalized_header := lchZero
  sync_aggregate := 0
  signature_slot := 0

/-- A trivial oracle record used in concrete evaluations. -/
def oZero : Oracles where
  latest_block_number := 0
  client_state0 := csZero
  client_state1 := csZero
  readiness_polls := fun _ => fuZero
  finality_update := fuZero
  light_client_updates := []
  committee_at := fun _ => 0
  proof_at := fun _ _ => { account_proof := [], storage_hash := 0 }
  tm_timestamps := fun _ => 0
  now_unix := 0

/-- Trivial cosmos helpers: no packet messages, proof injection returns its
inputs unchanged. -/
def helpersTrivial : CosmosHelpers where
  target_events_to_timeout_msgs := fun _ _ _ _ _ _ _ => []
  src_events_to_recv_and_ack_msgs := fun _ _ _ _ _ _ _ _ => ([], [])
  inject_ethereum_proofs := fun r a t _ _ _ => Except.ok (r, a, t)

/-- Trivial sudo handlers used in concrete evaluations. -/
def handlersZero : SudoHandlers where
  verify_membership := fun _ _ => Except.ok 0
  verify_non_membership := fun _ _ => Except.ok 0
  update_state := fun st _ => Except.ok (st, 0)
  misbehaviour := fun st _ => Except.ok (st, 0)

/-- An empty contract storage. -/
def stEmpty : ContractStorage where
  contract_info := none
  host_client_state := none
  consensus_states := []

/-- A contract storage whose stored cw2 version is `1.1.2` for contract `7`. -/
def stV112 : ContractStorage where
  contract_info := some { contract := 7, version := { major := 1, minor := 1, patch := 2 } }
  host_client_state := none
  consensus_states := []

/-- A client state in period 1 (32-slot periods, latest slot 32). -/
def cs3 : ClientState :=
  { csZero with slots_per_epoch := 8, epochs_per_sync_committee_period := 4, latest_slot := 32 }

/-- A finality update finalized at slot 0 (period 0). -/
def fu3 : LightClientFinalityUpdate := fuZero

/-- A client state in period 0 (32-slot periods, latest slot 0). -/
def cs3w : ClientState :=
  { csZero with slots_per_epoch := 8, epochs_per_sync_committee_period := 4, latest_slot := 0 }

/-- A finality update finalized at slot 64 (period 2). -/
def fu3w : LightClientFinalityUpdate :=
  { fuZero with finalized_header := { beacon := { slot := 64 }, execution := lchZero.execution } }

/-- The client state of the concrete planner run: 32-slot periods, trusted
slot 0. -/
def cs4 : ClientState :=
  { csZero with slots_per_epoch := 8, epochs_per_sync_committee_period := 4, latest_slot := 0 }

/-- A light-client update finalized at slot 32 (period 1). -/
def u4 : LightClientUpdate where
  attested_header :=
    { beacon := { slot := 33 }, execution := { block_number := 10, timestamp := 0 } }
  next_sync_committee := some 5
  finalized_header :=
    { beacon := { slot := 32 }, execution := { block_number := 9, timestamp := 0 } }
  sync_aggregate := 0
  signature_slot := 34

/-- A finality update finalized at slot 40 (period 1), attested at slot 47. -/
def fu4 : LightClientFinalityUpdate where
  attested_header :=
    { beacon := { slot := 47 }, execution := { block_number := 12, timestamp := 0 } }
  finalized_header :=
    { beacon := { slot := 40 }, execution := { block_number := 11, timestamp := 0 } }
  sync_aggregate := 0
  signature_slot := 48

/-- The oracle of the concrete planner run: one update at period 1, finality
in the same period. -/
def o4 : Oracles :=
  { oZero with
    finality_update := fu4
    light_client_updates := [u4]
    committee_at := fun s => s + 100 }

/-- The client state of the concrete panic run: trusted execution block 3. -/
def cs10 : ClientState :=
  { csZero with latest_execution_block_number := 3, seconds_per_slot := 12, genesis_time := 100 }

/-- A finality update finalized at execution block 6. -/
def fu10 : LightClientFinalityUpdate :=
  { fu4 with finalized_header :=
      { beacon := { slot := 40 }, execution := { block_number := 6, timestamp := 0 } } }

/-- The oracle of the concrete panic run: the minimum block number (5) is
beyond the trusted execution block (3) so a header is produced, and the
destination chain reports a negative block timestamp. -/
def o10 : Oracles :=
  { oZero with
    latest_block_number := 5
    client_state0 := cs10
    client_state1 := cs10
    readiness_polls := fun _ => fu10
    finality_update := fu10
    tm_timestamps := fun _ => -1 }

/-- A destination event without a block number. -/
def dest10 : List EurekaEventWithHeight := [{ block_number := none, event := 0 }]

theorem SemVer.Lt_irrefl (a : SemVer) : ¬ SemVer.Lt a a := by
  unfold SemVer.Lt
  omega

theorem SemVer.Lt_asymm {a b : SemVer} (h : SemVer.Lt a b) : ¬ SemVer.Lt b a := by
  unfold SemVer.Lt at *
  omega

/-- C1 counterexample: instantiating stores version `1.1.2`; a migrate with no
re-instantiate payload at the SAME state version `1.1.2` — which is not
strictly newer than the stored one — succeeds and leaves the storage
unchanged, where the claim requires an error. -/
theorem c1_counterexample :
    migrate 7 { major := 1, minor := 1, patch := 2 } stV112 { instantiate_msg := none } =
      Except.ok stV112 ∧
    ¬ SemVer.Lt { major := 1, minor := 1, patch := 2 } { major := 1, minor := 1, patch := 2 } := by
  exact ⟨rfl, by decide⟩

/-- C1 (amended): `migrate` fails exactly when the stored cw2 version is
strictly NEWER than the new state version (`cw2::ensure_from_older_version`);
at an equal version it succeeds and, with no re-instantiate payload, leaves
storage unchanged; at a strictly newer state version it succeeds and bumps the
stored version record. -/
theorem c1_migrate_version_gate (name : Nat) (v new : SemVer) (st : ContractStorage)
    (hinfo : st.contract_info = some { contract := name, version := v }) :
    (SemVer.Lt new v →
      migrate name new st { instantiate_msg := none } =
        Except.error ContractError.versionTooOld) ∧
    (v = new →
      migrate name new st { instantiate_msg := none } = Except.ok st) ∧
    (SemVer.Lt v new →
      migrate name new st { instantiate_msg := none } =
        Except.ok (set_contract_version st name new)) := by
  obtain ⟨info, hostcs, cons⟩ := st
  simp only at hinfo
  subst hinfo
  refine ⟨fun h => ?_, fun h => ?_, fun h => ?_⟩
  · simp [migrate, ensure_from_older_version, h]
  · subst h
    simp [migrate, ensure_from_older_version, SemVer.Lt_irrefl]
  · simp [migrate, ensure_from_older_version, h, SemVer.Lt_asymm h, set_contract_version]

/-- C1 witness: the amended theorem evaluated at stored version `1.1.2` and
new state version `1.2.0`. -/
theorem c1_theorem_witness :
    (SemVer.Lt { major := 1, minor := 2, patch := 0 } { major := 1, minor := 1, patch := 2 } →
      migrate 7 { major := 1, minor := 2, patch := 0 } stV112 { instantiate_msg := none } =
        Except.error ContractError.versionTooOld) ∧
    (({ major := 1, minor := 1, patch := 2 } : SemVer) = { major := 1, minor := 2, patch := 0 } →
      migrate 7 { major := 1, minor := 2, patch := 0 } stV112 { instantiate_msg := none } =
        Except.ok stV112) ∧
    (SemVer.Lt { major := 1, minor := 1, patch := 2 } { major := 1, minor := 2, patch := 0 } →
      migrate 7 { major := 1, minor := 2, patch := 0 } stV112 { instantiate_msg := none } =
        Except.ok (set_contract_version stV112 7 { major := 1, minor := 2, patch := 0 })) :=
  c1_migrate_version_gate 7 { major := 1, minor := 1, patch := 2 }
    { major := 1, minor := 2, patch := 0 } stV112 rfl

/-- C2 counterexample: a concrete `sudo` call with each reserved variant
panics (the `todo!()` arms) and does not return a typed contract error. -/
theorem c2_counterexample :
    «sudo» handlersZero stEmpty (SudoMsg.VerifyUpgradeAndUpdateState 0) = Outcome.panicked ∧
    («sudo» handlersZero stEmpty (SudoMsg.VerifyUpgradeAndUpdateState 0)).isErr = false ∧
    «sudo» handlersZero stEmpty (SudoMsg.MigrateClientStore 0) = Outcome.panicked ∧
    («sudo» handlersZero stEmpty (SudoMsg.MigrateClientStore 0)).isErr = false :=
  ⟨rfl, rfl, rfl, rfl⟩

/-- C2 (amended): for every storage, every set of sudo handlers and every
payload, a sudo message of variant `VerifyUpgradeAndUpdateState` or
`MigrateClientStore` makes the `sudo` entry point panic (the `todo!()` arms),
so no typed contract error is returned and no state is written. -/
theorem c2_reserved_variants_panic (handlers : SudoHandlers) (st : ContractStorage)
    (p q : Nat) :
    «sudo» handlers st (SudoMsg.VerifyUpgradeAndUpdateState p) = Outcome.panicked ∧
    «sudo» handlers st (SudoMsg.MigrateClientStore q) = Outcome.panicked :=
  ⟨rfl, rfl⟩

/-- C3 counterexample: with 32-slot periods, a trusted slot of 32 (period 1)
and a finality update finalized at slot 0 (period 0), `target_period <
trusted_period` holds and the requested count is the wrapped u64 value 0 — not
1 as the claim states. -/
theorem c3_counterexample :
    cs3.compute_sync_committee_period_at_slot fu3.finalized_header.beacon.slot <
      cs3.compute_sync_committee_period_at_slot cs3.latest_slot ∧
    light_client_updates_count cs3 fu3 = 0 ∧
    light_client_updates_count cs3 fu3 ≠ 1 := by
  refine ⟨by decide, by decide, by decide⟩

/-- C3 (amended): the planner always requests
`target_period - trusted_period + 1` in wrapping u64 arithmetic; whenever
`trusted_period ≤ target_period` (with the periods below `2^64` and no wrap in
the increment) the count equals `target_period - trusted_period + 1`, and when
`target_period < trusted_period` the subtraction underflows (count 0 in the
counterexample), never 1. -/
theorem c3_updates_count_formula (cs : ClientState) (fu : LightClientFinalityUpdate)
    (hb : cs.compute_sync_committee_period_at_slot cs.latest_slot < 2 ^ 64)
    (hge : cs.compute_sync_committee_period_at_slot cs.latest_slot ≤
      cs.compute_sync_committee_period_at_slot fu.finalized_header.beacon.slot)
    (hlt : cs.compute_sync_committee_period_at_slot fu.finalized_header.beacon.slot -
      cs.compute_sync_committee_period_at_slot cs.latest_slot + 1 < 2 ^ 64) :
    light_client_updates_count cs fu =
      cs.compute_sync_committee_period_at_slot fu.finalized_header.beacon.slot -
        cs.compute_sync_committee_period_at_slot cs.latest_slot + 1 := by
  unfold light_client_updates_count wrapAdd wrapSub U64MOD
  have h64 : (2 : Nat) ^ 64 = 18446744073709551616 := by norm_num
  rw [h64] at hb hlt ⊢
  omega

/-- C3 witness: the amended theorem evaluated at trusted period 0 and target
period 2, where the count is `2 - 0 + 1 = 3`. -/
theorem c3_theorem_witness :
    light_client_updates_count cs3w fu3w =
      cs3w.compute_sync_committee_period_at_slot fu3w.finalized_header.beacon.slot -
        cs3w.compute_sync_committee_period_at_slot cs3w.latest_slot + 1 :=
  c3_updates_count_formula cs3w fu3w (by decide) (by decide) (by decide)

theorem wait_polls_pure_ok (p : Nat → Bool) :
    ∀ (fuel s i : Nat), wait_polls (fun j => Outcome.ok (p j)) s fuel = Outcome.ok i →
      s ≤ i ∧ i < s + fuel ∧ p i = true ∧ ∀ j, s ≤ j → j < i → p j = false := by
  intro fuel
  induction fuel with
  | zero =>
    intro s i h
    simp [wait_polls] at h
  | succ n ih =>
    intro s i h
    cases hp : p s with
    | true =>
      simp [wait_polls, hp] at h
      subst h
      exact ⟨Nat.le_refl _, by omega, hp, fun j h1 h2 => by omega⟩
    | false =>
      simp [wait_polls, hp] at h
      obtain ⟨h1, h2, h3, h4⟩ := ih (s + 1) i h
      refine ⟨by omega, by omega, h3, fun j hj1 hj2 => ?_⟩
      rcases Nat.eq_or_lt_of_le hj1 with hj | hj
      · rw [← hj]
        exact hp
      · exact h4 j (by omega) hj2

theorem wait_polls_pure_timeout (p : Nat → Bool) :
    ∀ (fuel s : Nat), (∀ j, s ≤ j → j < s + fuel → p j = false) →
      wait_polls (fun j => Outcome.ok (p j)) s fuel = Outcome.err RelayError.timeoutElapsed := by
  intro fuel
  induction fuel with
  | zero =>
    intro s _
    simp [wait_polls]
  | succ n ih =>
    intro s h
    have hp : p s = false := h s (Nat.le_refl _) (by omega)
    simp [wait_polls, hp]
    exact ih (s + 1) (fun j h1 h2 => h j (by omega) (by omega))

theorem readiness_cond_eq (o : Oracles) (target : Nat) :
    readiness_cond o target = fun j =>
      Outcome.ok
        (decide (target ≤ (o.readiness_polls j).finalized_header.execution.block_number)) := by
  funext j
  unfold readiness_cond
  rcases Nat.lt_or_ge (o.readiness_polls j).finalized_header.execution.block_number target
    with h | h
  · have hn : ¬ target ≤ (o.readiness_polls j).finalized_header.execution.block_number := by
      omega
    simp [if_pos h, hn]
  · have hn : ¬ (o.readiness_polls j).finalized_header.execution.block_number < target := by
      omega
    simp [if_neg hn, h]

/-- C8: the readiness wait makes up to `45*60/10 = 270` polls of
`finality_update()`; it succeeds exactly at the first poll whose finalized
execution block number reaches the target, and returns the timeout error when
no poll within the deadline does.  In `relay_events`, headers are computed
(after the wait, from the re-loaded client state) exactly when the minimum
block number exceeds the trusted `latest_execution_block_number`, and
otherwise the header list is empty. -/
theorem c8_readiness_wait (o : Oracles) (target minBlock : Nat) :
    (∀ i, wait_for_light_client_readiness o target = Outcome.ok i →
      i < 270 ∧
      target ≤ (o.readiness_polls i).finalized_header.execution.block_number ∧
      ∀ j, j < i → (o.readiness_polls j).finalized_header.execution.block_number < target) ∧
    ((∀ i, i < 270 → (o.readiness_polls i).finalized_header.execution.block_number < target) →
      wait_for_light_client_readiness o target = Outcome.err RelayError.timeoutElapsed) ∧
    (¬ minBlock > o.client_state0.latest_execution_block_number →
      relay_headers_and_state o minBlock = Outcome.ok ([], o.client_state0)) ∧
    (minBlock > o.client_state0.latest_execution_block_number →
      ∀ i, wait_for_light_client_readiness o minBlock = Outcome.ok i →
        relay_headers_and_state o minBlock =
          Outcome.ok (get_update_headers o o.client_state1, o.client_state1)) := by
  have hdiv : 45 * 60 / 10 = 270 := by norm_num
  refine ⟨?_, ?_, ?_, ?_⟩
  · intro i h
    unfold wait_for_light_client_readiness wait_for_condition at h
    rw [readiness_cond_eq, hdiv] at h
    obtain ⟨h1, h2, h3, h4⟩ := wait_polls_pure_ok _ 270 0 i h
    refine ⟨by omega, by simpa using h3, fun j hj => ?_⟩
    have := h4 j (by omega) hj
    simp at this
    omega
  · intro h
    unfold wait_for_light_client_readiness wait_for_condition
    rw [readiness_cond_eq, hdiv]
    refine wait_polls_pure_timeout _ 270 0 (fun j _ hj => ?_)
    have := h j (by omega)
    simp
    omega
  · intro h
    unfold relay_headers_and_state
    rw [if_neg h]
  · intro h i hw
    unfold relay_headers_and_state
    rw [if_pos h, hw]

theorem wait_polls_panics_first (cond : Nat → Outcome RelayError Bool) (s fuel : Nat)
    (h : cond s = Outcome.panicked) : wait_polls cond s (fuel + 1) = Outcome.panicked := by
  unfold wait_polls
  rw [h]

theorem get_update_headers_ne_nil (o : Oracles) (cs : ClientState) :
    get_update_headers o cs ≠ [] := by
  unfold get_update_headers
  split
  · simp
  · rename_i hcond
    intro h
    apply hcond
    rw [h]
    rfl

/-- C5: whenever `relay_events` succeeds, the emitted transaction body holds
exactly one `Any`-encoded `MsgUpdateClient` per produced header, in header
order, followed by the proof-injected timeout, recv and ack messages, in that
order. -/
theorem c5_tx_msg_order (o : Oracles) (helpers : CosmosHelpers)
    (src_events dest_events : List EurekaEventWithHeight) (sci dci : Nat)
    (ss ds : List Nat) (signer : Nat) (body : TxBody)
    (hok : relay_events o helpers src_events dest_events sci dci ss ds signer =
      Outcome.ok body) :
    ∃ headers ecs recv2 ack2 timeout2,
      relay_headers_and_state o (relay_min o src_events dest_events) =
        Outcome.ok (headers, ecs) ∧
      helpers.inject_ethereum_proofs
        (relay_recv_ack_msgs helpers o src_events dest_events sci dci ss ds signer).1
        (relay_recv_ack_msgs helpers o src_events dest_events sci dci ss ds signer).2
        (relay_timeout_msgs helpers o src_events dest_events sci dci ds signer)
        ecs.ibc_contract_address ecs.ibc_commitment_slot (relay_proof_slot headers ecs) =
        Except.ok (recv2, ack2, timeout2) ∧
      body.messages =
        (headers.map (fun header => AnyMsg.updateClient
          { client_id := dci, client_message := { data := header }, signer := signer }))
          ++ timeout2.map AnyMsg.timeout ++ recv2.map AnyMsg.recv ++ ack2.map AnyMsg.ack := by
  unfold relay_events at hok
  cases hrel : relay_headers_and_state o (relay_min o src_events dest_events) with
  | ok hp =>
    obtain ⟨headers, ecs⟩ := hp
    rw [hrel] at hok
    simp only [] at hok
    cases hinj : helpers.inject_ethereum_proofs
        (relay_recv_ack_msgs helpers o src_events dest_events sci dci ss ds signer).1
        (relay_recv_ack_msgs helpers o src_events dest_events sci dci ss ds signer).2
        (relay_timeout_msgs helpers o src_events dest_events sci dci ds signer)
        ecs.ibc_contract_address ecs.ibc_commitment_slot (relay_proof_slot headers ecs) with
    | ok triple =>
      obtain ⟨recv2, ack2, timeout2⟩ := triple
      rw [hinj] at hok
      simp only [] at hok
      cases hw : post_assembly_wait ecs headers
          (headers.getLast?.map (fun h => h.consensus_update.signature_slot)) o with
      | ok k =>
        rw [hw] at hok
        simp only [] at hok
        cases hok
        exact ⟨headers, ecs, recv2, ack2, timeout2, rfl, hinj, rfl⟩
      | err e =>
        rw [hw] at hok
        simp at hok
      | panicked =>
        rw [hw] at hok
        simp at hok
    | error e =>
      rw [hinj] at hok
      simp at hok
  | err e =>
    rw [hrel] at hok
    simp at hok
  | panicked =>
    rw [hrel] at hok
    simp at hok

/-- C5 witness: the theorem evaluated on a concrete successful run with no
events and no headers, whose body has no messages. -/
theorem c5_theorem_witness :
    ∃ headers ecs recv2 ack2 timeout2,
      relay_headers_and_state oZero (relay_min oZero [] []) = Outcome.ok (headers, ecs) ∧
      helpersTrivial.inject_ethereum_proofs
        (relay_recv_ack_msgs helpersTrivial oZero [] [] 0 0 [] [] 0).1
        (relay_recv_ack_msgs helpersTrivial oZero [] [] 0 0 [] [] 0).2
        (relay_timeout_msgs helpersTrivial oZero [] [] 0 0 [] 0)
        ecs.ibc_contract_address ecs.ibc_commitment_slot (relay_proof_slot headers ecs) =
        Except.ok (recv2, ack2, timeout2) ∧
      (({ messages := [] } : TxBody)).messages =
        (headers.map (fun header => AnyMsg.updateClient
          { client_id := 0, client_message := { data := header }, signer := 0 }))
          ++ timeout2.map AnyMsg.timeout ++ recv2.map AnyMsg.recv ++ ack2.map AnyMsg.ack :=
  c5_tx_msg_order oZero helpersTrivial [] [] 0 0 [] [] 0 { messages := [] } rfl

/-- C6: in the header-producing step of `relay_events`, the `proof_slot`
passed to `inject_ethereum_proofs` is the last produced header's finalized
beacon slot when a header exists; when no headers are produced the client
state in scope is still the originally loaded one and the proof slot is its
`latest_slot`. -/
theorem c6_proof_slot_choice (o : Oracles) (minBlock : Nat) (headers : List Header)
    (ecs : ClientState)
    (hok : relay_headers_and_state o minBlock = Outcome.ok (headers, ecs)) :
    (∀ h, headers.getLast? = some h →
      relay_proof_slot headers ecs = h.consensus_update.finalized_header.beacon.slot) ∧
    (headers = [] →
      ecs = o.client_state0 ∧
      relay_proof_slot headers ecs = o.client_state0.latest_slot) := by
  constructor
  · intro h hlast
    unfold relay_proof_slot
    rw [hlast]
    rfl
  · intro hnil
    subst hnil
    unfold relay_headers_and_state at hok
    by_cases hgt : minBlock > o.client_state0.latest_execution_block_number
    · rw [if_pos hgt] at hok
      cases hw : wait_for_light_client_readiness o minBlock with
      | ok i =>
        rw [hw] at hok
        simp at hok
        exact absurd hok.1 (get_update_headers_ne_nil o o.client_state1)
      | err e =>
        rw [hw] at hok
        simp at hok
      | panicked =>
        rw [hw] at hok
        simp at hok
    · rw [if_neg hgt] at hok
      simp at hok
      refine ⟨hok.symm, ?_⟩
      rw [← hok]
      rfl

/-- C6 witness: the theorem evaluated on a concrete run that produces no
headers. -/
theorem c6_theorem_witness :
    (∀ h, (([] : List Header)).getLast? = some h →
      relay_proof_slot [] oZero.client_state0 =
        h.consensus_update.finalized_header.beacon.slot) ∧
    (([] : List Header) = [] →
      oZero.client_state0 = oZero.client_state0 ∧
      relay_proof_slot [] oZero.client_state0 = oZero.client_state0.latest_slot) :=
  c6_proof_slot_choice oZero 0 [] oZero.client_state0 rfl

/-- C9: when the header-producing step yields no headers, the post-assembly
wait condition is satisfied at its very first evaluation, for every oracle —
in particular independently of the destination chain's latest-block responses,
which are therefore never consulted — and `relay_events` proceeds directly to
the transaction body. -/
theorem c9_empty_headers_short_circuit (o : Oracles) (cs : ClientState) (lss : Option Nat)
    (helpers : CosmosHelpers) (src_events dest_events : List EurekaEventWithHeight)
    (sci dci : Nat) (ss ds : List Nat) (signer : Nat) (ecs : ClientState)
    (r : List MsgRecvPacket) (a : List MsgAcknowledgement) (t : List MsgTimeout) :
    post_assembly_cond cs [] lss o 0 = Outcome.ok true ∧
    post_assembly_wait cs [] lss o = Outcome.ok 0 ∧
    (relay_headers_and_state o (relay_min o src_events dest_events) = Outcome.ok ([], ecs) →
      helpers.inject_ethereum_proofs
        (relay_recv_ack_msgs helpers o src_events dest_events sci dci ss ds signer).1
        (relay_recv_ack_msgs helpers o src_events dest_events sci dci ss ds signer).2
        (relay_timeout_msgs helpers o src_events dest_events sci dci ds signer)
        ecs.ibc_contract_address ecs.ibc_commitment_slot (relay_proof_slot [] ecs) =
        Except.ok (r, a, t) →
      relay_events o helpers src_events dest_events sci dci ss ds signer =
        Outcome.ok
          { messages := t.map AnyMsg.timeout ++ r.map AnyMsg.recv ++ a.map AnyMsg.ack }) := by
  refine ⟨rfl, rfl, fun hh hinj => ?_⟩
  unfold relay_events
  rw [hh]
  simp only [hinj]
  rfl

/-- C10: in a run with at least one produced header, a destination-chain
latest-block timestamp whose `i64 → u64` conversion fails (negative) or on
which `compute_slot_at_timestamp` is `None` makes the post-assembly wait — and
with it `relay_events` — panic (the two `.unwrap()` calls) instead of
returning a typed error. -/
theorem c10_unwrap_panics (o : Oracles) (helpers : CosmosHelpers)
    (src_events dest_events : List EurekaEventWithHeight) (sci dci : Nat)
    (ss ds : List Nat) (signer : Nat) (headers : List Header) (ecs : ClientState)
    (r : List MsgRecvPacket) (a : List MsgAcknowledgement) (t : List MsgTimeout)
    (hh : relay_headers_and_state o (relay_min o src_events dest_events) =
      Outcome.ok (headers, ecs))
    (hne : headers ≠ [])
    (hinj : helpers.inject_ethereum_proofs
      (relay_recv_ack_msgs helpers o src_events dest_events sci dci ss ds signer).1
      (relay_recv_ack_msgs helpers o src_events dest_events sci dci ss ds signer).2
      (relay_timeout_msgs helpers o src_events dest_events sci dci ds signer)
      ecs.ibc_contract_address ecs.ibc_commitment_slot (relay_proof_slot headers ecs) =
      Except.ok (r, a, t))
    (hbad : o.tm_timestamps 0 < 0 ∨
      ecs.compute_slot_at_timestamp (o.tm_timestamps 0).toNat = none) :
    relay_events o helpers src_events dest_events sci dci ss ds signer =
      Outcome.panicked := by
  have hempty : headers.isEmpty = false := by
    cases headers with
    | nil => exact absurd rfl hne
    | cons x l => rfl
  have hcond : post_assembly_cond ecs headers
      (headers.getLast?.map (fun h => h.consensus_update.signature_slot)) o 0 =
      Outcome.panicked := by
    unfold post_assembly_cond
    rw [hempty]
    simp only [Bool.false_eq_true, if_false]
    by_cases hts : o.tm_timestamps 0 < 0
    · rw [if_pos hts]
    · rw [if_neg hts]
      rcases hbad with hbad | hbad
      · exact absurd hbad hts
      · rw [hbad]
  have hwait : post_assembly_wait ecs headers
      (headers.getLast?.map (fun h => h.consensus_update.signature_slot)) o =
      Outcome.panicked := by
    unfold post_assembly_wait wait_for_condition
    rw [show (15 * 60 / 10 : Nat) = 89 + 1 by norm_num]
    exact wait_polls_panics_first _ 0 89 hcond
  unfold relay_events
  rw [hh]
  simp only [hinj, hwait]

/-- C10 witness: a concrete run producing one header in which the destination
chain reports timestamp `-1`; `relay_events` panics. -/
theorem c10_theorem_witness :
    relay_events o10 helpersTrivial [] dest10 0 0 [] [] 0 = Outcome.panicked :=
  c10_unwrap_panics o10 helpersTrivial [] dest10 0 0 [] [] 0
    (get_update_headers o10 o10.client_state1) o10.client_state1 [] [] []
    rfl (by decide) rfl (Or.inl (by decide))

theorem nat_max?_spec (l : List Nat) (m : Nat) (h : l.max? = some m) :
    m ∈ l ∧ ∀ x ∈ l, x ≤ m := by
  rw [List.max?_eq_some_iff] at h
  · exact h
  all_goals simp [Nat.le_total]

/-- C7: the `minimum_block_number` of `relay_events` is the current latest
Ethereum block when destination events are present; otherwise it is the
maximum block number carried by the source events, and the latest block when
no source event carries one. -/
theorem c7_minimum_block_number (latest : Nat) (src dest : List EurekaEventWithHeight) :
    (dest ≠ [] → minimum_block_number_of latest src dest = latest) ∧
    (dest = [] → (∀ e ∈ src, e.block_number = none) →
      minimum_block_number_of latest src dest = latest) ∧
    (dest = [] → ∀ m, (src.filterMap (fun e => e.block_number)).max? = some m →
      minimum_block_number_of latest src dest = m ∧
      (∃ e ∈ src, e.block_number = some m) ∧
      ∀ e ∈ src, ∀ b, e.block_number = some b → b ≤ m) := by
  refine ⟨?_, ?_, ?_⟩
  · intro h
    unfold minimum_block_number_of
    rw [if_neg]
    simp [List.isEmpty_iff, h]
  · intro h hall
    subst h
    unfold minimum_block_number_of
    show (List.filterMap (fun e => e.block_number) src).max?.getD latest = latest
    have hnil : src.filterMap (fun e => e.block_number) = [] := by
      rw [List.filterMap_eq_nil_iff]
      exact hall
    rw [hnil]
    rfl
  · intro h m hm
    subst h
    obtain ⟨hmem, hbound⟩ := nat_max?_spec _ m hm
    refine ⟨?_, ?_, ?_⟩
    · unfold minimum_block_number_of
      show (List.filterMap (fun e => e.block_number) src).max?.getD latest = m
      rw [hm]
      rfl
    · rw [List.mem_filterMap] at hmem
      exact hmem
    · intro e he b hb
      exact hbound b (List.mem_filterMap.mpr ⟨e, he, hb⟩)

theorem update_headers_loop_spec (o : Oracles) (cs : ClientState) :
    ∀ (updates : List LightClientUpdate) (lts lp : Nat),
      cs.compute_sync_committee_period_at_slot lts = lp →
      (∀ hd ∈ update_headers_loop o cs lts lp updates, lp < header_period cs hd) ∧
      List.Chain' (fun a b => header_period cs a < header_period cs b)
        (update_headers_loop o cs lts lp updates) := by
  intro updates
  induction updates with
  | nil =>
    intro lts lp _
    constructor
    · intro hd hmem
      simp [update_headers_loop] at hmem
    · simp [update_headers_loop]
  | cons u rest ih =>
    intro lts lp hl
    by_cases h1 : u.finalized_header.beacon.slot ≤ lts
    · have heq : update_headers_loop o cs lts lp (u :: rest) =
          update_headers_loop o cs lts lp rest := by
        simp only [update_headers_loop]
        rw [if_pos h1]
      rw [heq]
      exact ih lts lp hl
    · by_cases h2 :
        cs.compute_sync_committee_period_at_slot u.finalized_header.beacon.slot = lp
      · have heq : update_headers_loop o cs lts lp (u :: rest) =
            update_headers_loop o cs lts lp rest := by
          simp only [update_headers_loop]
          rw [if_neg h1, if_pos h2]
        rw [heq]
        exact ih lts lp hl
      · have heq : update_headers_loop o cs lts lp (u :: rest) =
            light_client_update_to_header o cs
              (ActiveSyncCommittee.Next (o.committee_at u.finalized_header.beacon.slot)) u
              :: update_headers_loop o cs u.finalized_header.beacon.slot
                (cs.compute_sync_committee_period_at_slot u.finalized_header.beacon.slot)
                rest := by
          simp only [update_headers_loop]
          rw [if_neg h1, if_neg h2]
        rw [heq]
        obtain ⟨ihall, ihchain⟩ := ih u.finalized_header.beacon.slot
          (cs.compute_sync_committee_period_at_slot u.finalized_header.beacon.slot) rfl
        have hlt_lp : lp <
            cs.compute_sync_committee_period_at_slot u.finalized_header.beacon.slot := by
          have hle : cs.compute_sync_committee_period_at_slot lts ≤
              cs.compute_sync_committee_period_at_slot u.finalized_header.beacon.slot := by
            unfold ClientState.compute_sync_committee_period_at_slot
            exact Nat.div_le_div_right (by omega)
          rw [hl] at hle
          omega
        constructor
        · intro hd hmem
          rcases List.mem_cons.mp hmem with hh | hh
          · subst hh
            exact hlt_lp
          · exact Nat.lt_trans hlt_lp (ihall hd hh)
        · rw [List.chain'_cons']
          refine ⟨?_, ihchain⟩
          intro b hb
          exact ihall b (List.mem_of_mem_head? hb)

theorem append_final_cond_true_iff (L : List Header) (fu : LightClientFinalityUpdate) :
    append_final_cond L fu = true ↔
      (L = [] ∨ ∃ last_header, L.getLast? = some last_header ∧
        header_finalized_slot last_header < fu.finalized_header.beacon.slot) := by
  unfold append_final_cond
  cases hL : L.getLast? with
  | none =>
    have hnil : L = [] := List.getLast?_eq_none_iff.mp hL
    simp [hnil]
  | some lh =>
    have hne : L ≠ [] := by
      intro h
      rw [h] at hL
      simp at hL
    simp [hne, header_finalized_slot]

/-- C4: for the headers produced by one `get_update_headers` run, the
sync-committee periods of the finalized slots strictly increase between
consecutive headers, except that the final pair may instead have equal periods
when the last header is the `Current`-tagged header built from the finality
update (whose committee was fetched at the finality update's attested slot);
moreover that final header is appended exactly when the loop output is empty
or its last entry's finalized slot is strictly below the finality update's
finalized slot. -/
theorem c4_header_period_chain (o : Oracles) (cs : ClientState) (i : Nat) (a b : Header)
    (ha : (get_update_headers o cs)[i]? = some a)
    (hb : (get_update_headers o cs)[i + 1]? = some b) :
    (header_period cs a < header_period cs b ∨
      (i + 2 = (get_update_headers o cs).length ∧
        header_period cs a = header_period cs b ∧
        b = finality_header o cs o.finality_update ∧
        b.isCurrentTagged = true)) ∧
    (get_update_headers o cs =
        update_headers_loop o cs cs.latest_slot
          (cs.compute_sync_committee_period_at_slot cs.latest_slot) o.light_client_updates
          ++ [finality_header o cs o.finality_update] ↔
      (update_headers_loop o cs cs.latest_slot
          (cs.compute_sync_committee_period_at_slot cs.latest_slot) o.light_client_updates = []
        ∨ ∃ last_header,
            (update_headers_loop o cs cs.latest_slot
                (cs.compute_sync_committee_period_at_slot cs.latest_slot)
                o.light_client_updates).getLast? = some last_header ∧
            header_finalized_slot last_header <
              o.finality_update.finalized_header.beacon.slot)) := by
  obtain ⟨hall, hchain⟩ := update_headers_loop_spec o cs o.light_client_updates cs.latest_slot
    (cs.compute_sync_committee_period_at_slot cs.latest_slot) rfl
  have hchain' := List.chain'_iff_get.mp hchain
  cases hc : append_final_cond
      (update_headers_loop o cs cs.latest_slot
        (cs.compute_sync_committee_period_at_slot cs.latest_slot) o.light_client_updates)
      o.finality_update with
  | false =>
    have hget : get_update_headers o cs =
        update_headers_loop o cs cs.latest_slot
          (cs.compute_sync_committee_period_at_slot cs.latest_slot) o.light_client_updates := by
      simp [get_update_headers, hc]
    rw [hget] at ha hb
    obtain ⟨hia, hea⟩ := List.getElem?_eq_some.mp ha
    obtain ⟨hib, heb⟩ := List.getElem?_eq_some.mp hb
    constructor
    · left
      have hstep := hchain' i (by omega)
      simp only [List.get_eq_getElem] at hstep
      rw [hea, heb] at hstep
      exact hstep
    · rw [hget]
      constructor
      · intro habs
        have hlen := congrArg List.length habs
        simp at hlen
      · intro hr
        have htrue := (append_final_cond_true_iff _ o.finality_update).mpr hr
        rw [hc] at htrue
        simp at htrue
  | true =>
    have hget : get_update_headers o cs =
        update_headers_loop o cs cs.latest_slot
          (cs.compute_sync_committee_period_at_slot cs.latest_slot) o.light_client_updates
          ++ [finality_header o cs o.finality_update] := by
      simp [get_update_headers, hc]
    rw [hget] at ha hb
    obtain ⟨hia, hea⟩ := List.getElem?_eq_some.mp ha
    obtain ⟨hib, heb⟩ := List.getElem?_eq_some.mp hb
    have hlenb : i + 1 < (update_headers_loop o cs cs.latest_slot
        (cs.compute_sync_committee_period_at_slot cs.latest_slot)
        o.light_client_updates).length + 1 := by
      simpa using hib
    refine ⟨?_, ?_⟩
    · by_cases hi2 : i + 1 < (update_headers_loop o cs cs.latest_slot
          (cs.compute_sync_committee_period_at_slot cs.latest_slot)
          o.light_client_updates).length
      · left
        rw [List.getElem_append_left (by omega)] at hea
        rw [List.getElem_append_left hi2] at heb
        have hstep := hchain' i (by omega)
        simp only [List.get_eq_getElem] at hstep
        rw [hea, heb] at hstep
        exact hstep
      · have hieq : i + 1 = (update_headers_loop o cs cs.latest_slot
            (cs.compute_sync_committee_period_at_slot cs.latest_slot)
            o.light_client_updates).length := by omega
        have hzero : i + 1 - (update_headers_loop o cs cs.latest_slot
            (cs.compute_sync_committee_period_at_slot cs.latest_slot)
            o.light_client_updates).length = 0 := by omega
        have hb2 : ([finality_header o cs o.finality_update])[i + 1 -
            (update_headers_loop o cs cs.latest_slot
              (cs.compute_sync_committee_period_at_slot cs.latest_slot)
              o.light_client_updates).length]? = some b := by
          rw [← List.getElem?_append_right (by omega)]
          exact hb
        rw [hzero] at hb2
        simp only [List.getElem?_cons_zero, Option.some.injEq] at hb2
        rw [List.getElem_append_left (by omega)] at hea
        rcases (append_final_cond_true_iff _ o.finality_update).mp hc with hLnil | hlast
        · rw [hLnil] at hieq
          simp at hieq
        · obtain ⟨last_header, hlastq, hlt⟩ := hlast
          have hlastget : (update_headers_loop o cs cs.latest_slot
              (cs.compute_sync_committee_period_at_slot cs.latest_slot)
              o.light_client_updates)[i]? = some last_header := by
            rw [List.getLast?_eq_getElem?] at hlastq
            have hidx : (update_headers_loop o cs cs.latest_slot
                (cs.compute_sync_committee_period_at_slot cs.latest_slot)
                o.light_client_updates).length - 1 = i := by omega
            rw [hidx] at hlastq
            exact hlastq
          have haeq : a = last_header := by
            rw [List.getElem?_eq_some] at hlastget
            obtain ⟨hl1, hl2⟩ := hlastget
            rw [← hea, hl2]
          have hle : header_period cs a ≤ header_period cs b := by
            rw [haeq, ← hb2]
            unfold header_period header_finalized_slot finality_header
              light_client_update_to_header ClientState.compute_sync_committee_period_at_slot
            exact Nat.div_le_div_right (Nat.le_of_lt hlt)
          rcases Nat.eq_or_lt_of_le hle with hpeq | hplt
          · right
            refine ⟨by rw [hget]; simp only [List.length_append, List.length_cons, List.length_nil]; omega, hpeq, hb2.symm, ?_⟩
            rw [← hb2]
            rfl
          · left
            exact hplt
    · rw [hget]
      constructor
      · intro _
        exact (append_final_cond_true_iff _ o.finality_update).mp hc
      · intro _
        rfl

/-- C4 witness: the theorem evaluated on a concrete run producing two headers,
a `Next`-tagged one for the period-1 update and the appended `Current`-tagged
finality header in the same period. -/
theorem c4_theorem_witness :
    (header_period cs4 (light_client_update_to_header o4 cs4
        (ActiveSyncCommittee.Next (o4.committee_at 32)) u4) <
        header_period cs4 (finality_header o4 cs4 o4.finality_update) ∨
      (0 + 2 = (get_update_headers o4 cs4).length ∧
        header_period cs4 (light_client_update_to_header o4 cs4
          (ActiveSyncCommittee.Next (o4.committee_at 32)) u4) =
          header_period cs4 (finality_header o4 cs4 o4.finality_update) ∧
        finality_header o4 cs4 o4.finality_update = finality_header o4 cs4 o4.finality_update ∧
        (finality_header o4 cs4 o4.finality_update).isCurrentTagged = true)) ∧
    (get_update_headers o4 cs4 =
        update_headers_loop o4 cs4 cs4.latest_slot
          (cs4.compute_sync_committee_period_at_slot cs4.latest_slot) o4.light_client_updates
          ++ [finality_header o4 cs4 o4.finality_update] ↔
      (update_headers_loop o4 cs4 cs4.latest_slot
          (cs4.compute_sync_committee_period_at_slot cs4.latest_slot) o4.light_client_updates = []
        ∨ ∃ last_header,
            (update_headers_loop o4 cs4 cs4.latest_slot
                (cs4.compute_sync_committee_period_at_slot cs4.latest_slot)
                o4.light_client_updates).getLast? = some last_header ∧
            header_finalized_slot last_header <
              o4.finality_update.finalized_header.beacon.slot)) :=
  c4_header_period_chain o4 cs4 0
    (light_client_update_to_header o4 cs4 (ActiveSyncCommittee.Next (o4.committee_at 32)) u4)
    (finality_header o4 cs4 o4.finality_update)
    (by decide) (by decide)
